import Mathlib

/-!
Shallow embedding of the ScreenProcessing pipeline (`process_experiments.py`)
and proofs about its scoring, filtering, merging and aggregation logic.

Modelling conventions:
* a pandas cell is `Val := Option ℚ`: `none` models `NaN` (the missing-value
  sentinel), `some q` a finite numeric value; real arithmetic is idealized
  over `ℚ`;
* `np.log2` is abstracted as an explicit function parameter `log2 : ℚ → ℚ`
  (the claims under study are about the structure of the computation, not
  about properties of the logarithm itself);
* `scipy.stats.mannwhitneyu`'s p-value is abstracted as a function parameter
  `mw : List ℚ → List ℚ → ℚ` (scipy is an external library);
* a Python `raise ValueError(msg)` is modelled as `Except.error msg`;
* tables are lists of rows (or of columns, where the source iterates over
  columns); alignment of equal-indexed tables is modelled by `List.zip`.
-/

namespace ScreenProcessing

/-- A cell of a pandas table: `none` models `NaN`, `some q` a finite value. -/
abbrev Val := Option ℚ

/-- `np.mean` of a plain list of numbers: sum divided by length. -/
def npMean (l : List ℚ) : ℚ := l.sum / l.length

/-- pandas column `sum` (`skipna=True`): sum of the non-`NaN` entries. -/
def sumV (l : List Val) : ℚ := (l.filterMap id).sum

/-- pandas column `count`: number of non-`NaN` entries. -/
def countV (l : List Val) : Nat := (l.filterMap id).length

/-- pandas `median` of a nonempty list of numbers: sort ascending, take the
middle element (odd length) or the mean of the two middle elements (even). -/
def medianList (l : List ℚ) : ℚ :=
  let s := List.insertionSort (fun a b => a ≤ b) l
  if l.length % 2 = 1 then s.getD (l.length / 2) 0
  else (s.getD (l.length / 2 - 1) 0 + s.getD (l.length / 2) 0) / 2

/-- pandas `median` of a column (`skipna=True`): median of the non-`NaN`
entries, `NaN` when there are none. -/
def medianV (l : List Val) : Val :=
  let valid := l.filterMap id
  if valid = [] then none else some (medianList valid)

/-- Elementwise `row + pseudocountValue` on one cell: `NaN + p = NaN`. -/
def addV (v : Val) (p : ℚ) : Val := v.map (fun a => a + p)

/-- Python builtin `min` over the two cells of a row, with Python's `NaN`
comparison semantics: `min` starts from the first element and replaces it
only when a later element compares strictly smaller, and every comparison
against `NaN` is false.  Hence `min(nan, x) = nan` and `min(x, nan) = x`. -/
def rowMin : Val → Val → Val
  | none, _ => none
  | some a, none => some a
  | some a, some b => some (min a b)

/-- Embedding of `calcLog2e` (`process_experiments.py` lines 504-505):
`(np.log2(countsRatio*row[1]/row[0]) - wtLog2E) / growthValue`.
`cr` is the counts ratio scalar; a `NaN` count or a `NaN` baseline propagates
to a `NaN` score. -/
def calcLog2e (log2 : ℚ → ℚ) (cr growthValue : ℚ) (wtLog2E : Val) (c1 c2 : Val) : Val :=
  match c1, c2, wtLog2E with
  | some a, some b, some w => some ((log2 (cr * b / a) - w) / growthValue)
  | _, _, _ => none

/-- The `defaultBehavior` lambda of `computePhenotypeScore` (line 473):
`row if min(row) != 0 else row + pseudocountValue` (note `nan != 0` is true
in Python, so fully-`NaN` rows are left unchanged). -/
def pseudoZerosRow (p : ℚ) (row : Val × Val) : Val × Val :=
  if rowMin row.1 row.2 ≠ some 0 then row else (addV row.1 p, addV row.2 p)

/-- The `min(row) <= 0` test of the `'filter out'` branch (line 479):
`nan <= 0` is false in Python. -/
def rowMinLeZero (row : Val × Val) : Bool :=
  match rowMin row.1 row.2 with
  | some m => decide (m ≤ 0)
  | none => false

/-- `resultTable.loc[failFilterColumn, :] = np.nan` (lines 450-451): copy the
table, replacing both cells of every failing row by `NaN`. -/
def maskRows (rows : List (ℚ × ℚ)) (failFilter : ℚ × ℚ → Bool) : List (Val × Val) :=
  rows.map fun row => if failFilter row then (none, none) else (some row.1, some row.2)

/-- Embedding of `filterLowCounts` (lines 434-453).  The two-column counts
table is a list of rows; an unrecognized filter type raises `ValueError`. -/
def filterLowCounts (countsColumns : List (ℚ × ℚ)) (filterType : String)
    (filterThreshold : ℚ) : Except String (List (Val × Val)) :=
  if filterType = "both" ∨ filterType = "all" then
    .ok (maskRows countsColumns (fun row => decide (min row.1 row.2 < filterThreshold)))
  else if filterType = "either" ∨ filterType = "any" then
    .ok (maskRows countsColumns (fun row => decide (max row.1 row.2 < filterThreshold)))
  else .error "filter type not recognized or not implemented"

/-- Lines 484-501 of `computePhenotypeScore`, applied to the pseudocounted
two-column table: total counts per column, counts ratio, negative-control
median log2-enrichment baseline (computed with `growthValue=1, wtLog2E=0`),
and the per-row scores.  `libGenes` is the `gene` column of the library
table, aligned row-by-row with the counts. -/
def scoreRows (log2 : ℚ → ℚ) (growthValue : ℚ) (normToNegs : Bool)
    (libGenes : List String) (combinedCountsPseudo : List (Val × Val)) : List Val :=
  let countsRat := sumV (combinedCountsPseudo.map Prod.fst) /
    sumV (combinedCountsPseudo.map Prod.snd)
  let negCounts :=
    if normToNegs then
      ((libGenes.zip combinedCountsPseudo).filter
        (fun gr => gr.1 = "negative_control")).map Prod.snd
    else combinedCountsPseudo
  let neglog2e := medianV (negCounts.map fun row => calcLog2e log2 countsRat 1 (some 0) row.1 row.2)
  combinedCountsPseudo.map fun row => calcLog2e log2 countsRat growthValue neglog2e row.1 row.2

/-- Embedding of `computePhenotypeScore` (lines 456-501): pseudocount the
pair of aligned count columns according to `pseudocountBehavior`, then score;
an unrecognized behavior raises `ValueError`. -/
def computePhenotypeScore (log2 : ℚ → ℚ) (counts1 counts2 : List Val)
    (libGenes : List String) (growthValue : ℚ) (pseudocountBehavior : String)
    (pseudocountValue : ℚ) (normToNegs : Bool) : Except String (List Val) :=
  let combinedCounts := counts1.zip counts2
  if pseudocountBehavior = "default" ∨ pseudocountBehavior = "zeros only" then
    .ok (scoreRows log2 growthValue normToNegs libGenes
      (combinedCounts.map (pseudoZerosRow pseudocountValue)))
  else if pseudocountBehavior = "all values" then
    .ok (scoreRows log2 growthValue normToNegs libGenes
      (combinedCounts.map fun row => (addV row.1 pseudocountValue, addV row.2 pseudocountValue)))
  else if pseudocountBehavior = "filter out" then
    .ok (scoreRows log2 growthValue normToNegs libGenes
      (combinedCounts.map fun row => if rowMinLeZero row then (none, none) else row))
  else .error "Pseudocount behavior not recognized or not implemented"

/-- Replicate averaging for one guide (line 176):
`repCols.mean(axis=1, skipna=False)` — the mean of the guide's scores across
the replicate columns, `NaN` as soon as any replicate is `NaN` (and `NaN`
for an empty set of columns). -/
def meanNoSkip (scores : List Val) : Val :=
  if scores = [] ∨ none ∈ scores then none
  else some (npMean (scores.filterMap id))

/-- Label of the averaged pseudo-replicate column (line 176):
`'ave_' + '_'.join(replicateList)`. -/
def aveLabel (replicateList : List String) : String :=
  "ave_" ++ String.intercalate "_" replicateList

/-- Stable insertion of `x` into `l`: `x` goes immediately before the first
element `y` with `lt x y`.  On a sorted list over a total order this is
exactly where CPython's binary insertion places `x` (after every element not
strictly greater). -/
def insertSorted (lt : α → α → Bool) (x : α) : List α → List α
  | [] => [x]
  | y :: ys => if lt x y then x :: y :: ys else y :: insertSorted lt x ys

/-- CPython `sorted(l)` (stable, ascending) with comparison `lt`. -/
def pySortAsc (lt : α → α → Bool) (l : List α) : List α :=
  l.foldl (fun acc x => insertSorted lt x acc) []

/-- CPython `sorted(l, reverse=True)`: the list is reversed, sorted
ascending (stable), and reversed again, yielding a stable descending sort. -/
def pySortDesc (lt : α → α → Bool) (l : List α) : List α :=
  (pySortAsc lt l.reverse).reverse

/-- The `key=abs` comparison on plain numbers. -/
def ltAbs (a b : ℚ) : Bool := decide (|a| < |b|)

/-- The `key=abs` comparison on possibly-`NaN` cells: `abs(nan) = nan` and
every comparison involving `NaN` is false. -/
def ltAbsV : Val → Val → Bool
  | some a, some b => decide (|a| < |b|)
  | _, _ => false

/-- Python list indexing `l[i]`, including negative indices;
`none` is an `IndexError`. -/
def pyGet (l : List α) (i : Int) : Option α :=
  if 0 ≤ i then l.get? i.toNat
  else if (-i).toNat ≤ l.length then l.get? (l.length - (-i).toNat) else none

/-- Python slice `l[:n]`, including a negative stop (`l[:-k]` drops the last
`k` elements). -/
def pyTake (n : Int) (l : List α) : List α :=
  if 0 ≤ n then l.take n.toNat else l.take (l.length - (-n).toNat)

/-- The `calculate_nth` aggregation lambda (line 580), applied to one group
column `x` (which, in the pipeline, still contains the `NaN` scores of
filtered-out guides): `sorted(x, key=abs, reverse=True)[nth-1] if
nth <= len(x) else np.nan`.  The `IndexError` alternative of `pyGet` cannot
occur when `1 ≤ nth`; it is collapsed to `NaN` by `.getD none`. -/
def calcNthColumn (nth : Int) (x : List Val) : Val :=
  if nth ≤ (x.length : Int) then (pyGet (pySortDesc ltAbsV x) (nth - 1)).getD none
  else none

/-- Embedding of `averageBestN` (lines 589-597) applied to one group column:
`np.mean(sorted(column.dropna(), key=abs, reverse=True)[:numToAverage]) if
len(column.dropna()) > 0 else np.nan`. -/
def averageBestNColumn (numToAverage : Int) (column : List Val) : Val :=
  let valid := column.filterMap id
  if 0 < valid.length then some (npMean (pyTake numToAverage (pySortDesc ltAbs valid)))
  else none

/-- `groupedPhenotypeTable.aggregate(np.mean)` for one group column
(line 567): pandas mean, skipping `NaN`, `NaN` when no valid entry exists. -/
def seriesMean (l : List Val) : Val :=
  let valid := l.filterMap id
  if valid = [] then none else some (npMean valid)

/-- Embedding of `applyMW` (lines 600-605) applied to one group column:
the Mann-Whitney p-value of the group's valid scores against the
negative-control column's valid scores when the group has at least one valid
score, `np.nan` otherwise.  `mw` abstracts the `stats.mannwhitneyu` p-value
(two-sided for scipy >= 0.17, doubled one-sided before; both versions share
the surrounding guard, which is what is modelled here). -/
def applyMWColumn (mw : List ℚ → List ℚ → ℚ) (column negColumn : List Val) : Val :=
  if 0 < (column.filterMap id).length then
    some (mw (column.filterMap id) (negColumn.filterMap id))
  else none

/-- Embedding of `applyGeneScoreFunction` (lines 555-586), specialized to a
single (phenotype, replicate) column: each gene group is a name paired with
its column of guide scores, and each analysis emits per group the statistic
together with the group's non-`NaN` guide count (`groupedPhenotypeTable.count()`).
`analysisParamList[0]` on an empty parameter list is a Python `IndexError`;
an unrecognized analysis name raises `ValueError`. -/
def applyGeneScoreFunction (mw : List ℚ → List ℚ → ℚ)
    (groups : List (String × List Val)) (negColumn : List Val)
    (analysis : String) (analysisParamList : List Int) :
    Except String (List (String × Val × Nat)) :=
  if analysis = "calculate_ave" then
    match analysisParamList with
    | [] => .error "list index out of range"
    | numToAverage :: _ =>
      if numToAverage ≤ 0 then
        .ok (groups.map fun gr => (gr.1, seriesMean gr.2, countV gr.2))
      else
        .ok (groups.map fun gr => (gr.1, averageBestNColumn numToAverage gr.2, countV gr.2))
  else if analysis = "calculate_mw" then
    .ok (groups.map fun gr => (gr.1, applyMWColumn mw gr.2 negColumn, countV gr.2))
  else if analysis = "calculate_nth" then
    match analysisParamList with
    | [] => .error "list index out of range"
    | nth :: _ =>
      .ok (groups.map fun gr => (gr.1, calcNthColumn nth gr.2, countV gr.2))
  else .error ("Analysis " ++ analysis ++ " not recognized or not implemented")

/-- Python `str.lower()` restricted to ASCII (all mode strings in the config
are ASCII), mapping each character to lower case. -/
def pyLower (s : String) : String := ⟨s.data.map Char.toLower⟩

/-- A synthetic library-table row generated for a pseudogene. -/
structure LibRow where
  gene : String
  transcripts : String
  sequence : String
deriving DecidableEq

/-- `pd.concat(tables)`: raises `ValueError('No objects to concatenate')` on
an empty list of tables, otherwise stacks the rows. -/
def pdConcat (tables : List (List α)) : Except String (List α) :=
  if tables.isEmpty then .error "No objects to concatenate" else .ok tables.flatten

/-- Lines 243-244: append the concatenated pseudogene tables to the
phenotype table and the library table.  Python evaluates line 243 first, so
the error of the first `pd.concat` is the one raised. -/
def appendPseudo (phenotypeRows : List (List Val)) (libraryRows : List LibRow)
    (pseudoTableList : List (List (List Val))) (pseudoLibTables : List (List LibRow)) :
    Except String (List (List Val) × List LibRow) :=
  match pdConcat pseudoTableList with
  | .error e => .error e
  | .ok pt =>
    match pdConcat pseudoLibTables with
    | .error e => .error e
    | .ok pl => .ok (phenotypeRows ++ pt, libraryRows ++ pl)

/-- `'manual'` mode pseudogene score tables (lines 211-217): for each of the
`numPseudogenes` pseudogenes, draw `pseudogeneSize` random rows from the
negative-control table.  `rand g t n` abstracts one call
`np.random.randint(0, len(negTable), n)` (the draw for pseudogene `g`,
transcript `t`; manual mode uses `t = 0`). -/
def manualPseudoTables (rand : Nat → Nat → Nat → List Nat)
    (numPseudogenes pseudogeneSize : Nat) (negValues : List (List Val)) :
    List (List (List Val)) :=
  (List.range numPseudogenes).map fun pseudogene =>
    (rand pseudogene 0 pseudogeneSize).map fun i => negValues.getD i []

/-- `'manual'` mode pseudogene library rows (lines 218-221). -/
def manualPseudoLibs (numPseudogenes pseudogeneSize : Nat) : List (List LibRow) :=
  (List.range numPseudogenes).map fun pseudogene =>
    (List.range pseudogeneSize).map fun i =>
      ⟨"pseudo_" ++ toString pseudogene, "na",
       "seq_" ++ toString pseudogene ++ "_" ++ toString i⟩

/-- `'auto'` mode pseudogene score tables (lines 223-234).  `geneGroups`
abstracts `libraryTable.drop_duplicates(['gene','sequence']).groupby('gene')`
as the list of (gene name, sizes of its transcript groups); genes named
`negative_control` are skipped, but still consume a pseudogene index
(`enumerate` runs before the `continue`). -/
def autoPseudoTables (rand : Nat → Nat → Nat → List Nat) (negValues : List (List Val))
    (geneGroups : List (String × List Nat)) : List (List (List Val)) :=
  ((geneGroups.enum.filter fun pg => pg.2.1 ≠ "negative_control").map fun pg =>
    pg.2.2.enum.map fun ts =>
      (rand pg.1 ts.1 ts.2).map fun i => negValues.getD i []).flatten

/-- `'auto'` mode pseudogene library rows (lines 235-238). -/
def autoPseudoLibs (geneGroups : List (String × List Nat)) : List (List LibRow) :=
  ((geneGroups.enum.filter fun pg => pg.2.1 ≠ "negative_control").map fun pg =>
    pg.2.2.enum.map fun ts =>
      (List.range ts.2).map fun i =>
        ⟨"pseudo_" ++ toString pg.1, "pseudo_transcript_" ++ toString ts.1,
         "seq_" ++ toString pg.1 ++ "_" ++ toString ts.1 ++ "_" ++ toString i⟩).flatten

/-- Embedding of the pseudogene-generation step of
`processExperimentsFromConfig` (lines 202-246).  Returns the log lines
printed and either the extended (phenotype table, library table) pair or the
uncaught pandas error.  The unrecognized-mode branch only prints a warning,
leaving `pseudoTableList` empty, and then line 243 still runs
`pd.concat(pseudoTableList)`.  The outer guard compares `mode` to `'off'`
case-sensitively; the inner dispatch uses `mode.lower()`. -/
def pseudogeneStep (mode : String) (numAnalyses : Nat) (rand : Nat → Nat → Nat → List Nat)
    (numPseudogenes pseudogeneSize : Nat) (phenotypeRows negValues : List (List Val))
    (geneGroups : List (String × List Nat)) (libraryRows : List LibRow) :
    List String × Except String (List (List Val) × List LibRow) :=
  if mode ≠ "off" ∧ 0 < numAnalyses then
    if pyLower mode = "manual" then
      (["Generating a pseudogene distribution from negative controls"],
       appendPseudo phenotypeRows libraryRows
         (manualPseudoTables rand numPseudogenes pseudogeneSize negValues)
         (manualPseudoLibs numPseudogenes pseudogeneSize))
    else if pyLower mode = "auto" then
      (["Generating a pseudogene distribution from negative controls"],
       appendPseudo phenotypeRows libraryRows
         (autoPseudoTables rand negValues geneGroups)
         (autoPseudoLibs geneGroups))
    else
      (["Generating a pseudogene distribution from negative controls",
        "generate_pseudogene_dist parameter not recognized, defaulting to off"],
       appendPseudo phenotypeRows libraryRows [] [])
  else ([], .ok (phenotypeRows, libraryRows))

/-- The (condition, replicate) part of a raw column's
(condition, replicate, counts-file) key — `groupby(level=[0, 1], axis=1)`. -/
def keyCondRep (t : String × String × String) : String × String := (t.1, t.2.1)

/-- Elementwise sum of a group of aligned columns (`aggregate(np.sum)`). -/
def sumColumns (cs : List (List ℚ)) : List ℚ :=
  match cs with
  | [] => []
  | c :: rest => rest.foldl (fun acc col => List.zipWith (fun a b => a + b) acc col) c

/-- Embedding of the merge step (lines 101-102): group the raw columns by
their (condition, replicate) key and sum each group elementwise, one output
column per distinct key.  (pandas orders the group keys by sorting; the
first-occurrence order used here differs only in column order, which no
claim depends on.) -/
def mergedCountsTable (cols : List ((String × String × String) × List ℚ)) :
    List ((String × String) × List ℚ) :=
  ((cols.map fun c => keyCondRep c.1).dedup).map fun k =>
    (k, sumColumns ((cols.filter fun c => keyCondRep c.1 = k).map Prod.snd))

/-- Spec-side definition (§4.4 step 1): `countsRatio` is the sum of all
pseudocounted condition-1 counts divided by the sum of all pseudocounted
condition-2 counts.  Stated over the per-guide rows
`(gene, count1, count2)` of an already-pseudocounted, all-valid table. -/
def countsRatioSpec (rows : List (String × ℚ × ℚ)) : ℚ :=
  (rows.map fun r => r.2.1).sum / (rows.map fun r => r.2.2).sum

/-- Spec-side definition (§4.4 step 2): `wtLog2E` is the median over the
guides whose gene is `negative_control` of `log2(countsRatio * count2 / count1)`. -/
def wtLog2ESpec (log2 : ℚ → ℚ) (rows : List (String × ℚ × ℚ)) : ℚ :=
  medianList ((rows.filter fun r => r.1 = "negative_control").map
    fun r => log2 (countsRatioSpec rows * r.2.2 / r.2.1))

/-- Spec-side definition (§4.4 step 3): per guide,
`(log2(countsRatio * count2 / count1) - wtLog2E) / growthValue`. -/
def phenotypeScoreSpec (log2 : ℚ → ℚ) (rows : List (String × ℚ × ℚ)) (g : ℚ) : List Val :=
  rows.map fun r =>
    some ((log2 (countsRatioSpec rows * r.2.2 / r.2.1) - wtLog2ESpec log2 rows) / g)

/-- Spec-side definition of `calculate_nth` as the claim states it: the
score ranked `nth` when the *valid* (non-`NaN`) scores are ordered by
absolute value descending, `NaN` if fewer than `nth` valid scores exist. -/
def specNthValid (nth : Int) (column : List Val) : Val :=
  let valid := column.filterMap id
  if 1 ≤ nth ∧ nth ≤ (valid.length : Int) then
    some ((pySortDesc ltAbs valid).getD (nth - 1).toNat 0)
  else none

/-- Spec-side definition of the `calculate_ave` score: the arithmetic mean
of the `min(N, number of valid scores)` valid scores largest in absolute
value, `NaN` when no valid score exists. -/
def specAveTopN (numToAverage : Int) (column : List Val) : Val :=
  let valid := column.filterMap id
  if valid = [] then none
  else some (npMean ((pySortDesc ltAbs valid).take (min numToAverage.toNat valid.length)))

/-- A small concrete raw-counts table: three single-lane columns, two of
which share the (condition, replicate) key `("T0", "Rep1")`. -/
def exampleRawCols : List ((String × String × String) × List ℚ) :=
  [(("T0", "Rep1", "file1"), [1, 2]),
   (("T0", "Rep1", "file2"), [3, 4]),
   (("Tfinal", "Rep1", "file3"), [5, 6])]

/-! ## Theorems -/

/-- C2: the zeros-only pseudocount row rule: on a row of two non-negative
counts, if the minimum is exactly 0 both cells get the pseudocount added,
otherwise the row is unchanged; with pseudocount 1 the row (0, 5) becomes
(1, 6) and the row (3, 5) is unchanged. -/
theorem pseudocount_zeros_only_row (a b p : ℚ) (ha : 0 ≤ a) (hb : 0 ≤ b) :
    pseudoZerosRow p (some a, some b) =
      (if min a b = 0 then (some (a + p), some (b + p)) else (some a, some b)) ∧
    pseudoZerosRow 1 (some 0, some 5) = (some 1, some 6) ∧
    pseudoZerosRow 1 (some 3, some 5) = (some 3, some 5) := by
  refine ⟨?_, ?_, ?_⟩
  · by_cases h : min a b = 0 <;> simp [pseudoZerosRow, rowMin, addV, h]
  · norm_num [pseudoZerosRow, rowMin, addV]
  · norm_num [pseudoZerosRow, rowMin, addV]

/-- Witness for C2 at the concrete row (0, 5) with pseudocount 1. -/
theorem pseudocount_zeros_only_row_witness :
    (0:ℚ) ≤ 0 ∧ (0:ℚ) ≤ 5 ∧ pseudoZerosRow 1 (some 0, some 5) = (some 1, some 6) :=
  ⟨le_refl 0, by norm_num,
   (pseudocount_zeros_only_row 0 5 1 (le_refl 0) (by norm_num)).2.1⟩

/-- C3: `filterLowCounts` with policy `all`/`both` masks exactly the rows
whose minimum count is strictly below the threshold, with `any`/`either`
exactly those whose maximum is strictly below; masked rows have both cells
replaced by `NaN` and all other rows are returned unchanged. -/
theorem filterLowCounts_policies (rows : List (ℚ × ℚ)) (T : ℚ) :
    filterLowCounts rows "all" T =
      .ok (rows.map fun r =>
        if min r.1 r.2 < T then (none, none) else (some r.1, some r.2)) ∧
    filterLowCounts rows "both" T =
      .ok (rows.map fun r =>
        if min r.1 r.2 < T then (none, none) else (some r.1, some r.2)) ∧
    filterLowCounts rows "any" T =
      .ok (rows.map fun r =>
        if max r.1 r.2 < T then (none, none) else (some r.1, some r.2)) ∧
    filterLowCounts rows "either" T =
      .ok (rows.map fun r =>
        if max r.1 r.2 < T then (none, none) else (some r.1, some r.2)) := by
  refine ⟨?_, ?_, ?_, ?_⟩ <;> simp [filterLowCounts, maskRows]

/-- C9: the `calculate_mw` analysis never raises, and a group column with
zero valid (non-`NaN`) guide scores yields a missing p-value. -/
theorem applyMW_empty_group (mw : List ℚ → List ℚ → ℚ)
    (groups : List (String × List Val)) (negColumn : List Val) (params : List Int) :
    (∃ res, applyGeneScoreFunction mw groups negColumn "calculate_mw" params = .ok res) ∧
    (∀ column : List Val, column.filterMap id = [] →
      applyMWColumn mw column negColumn = none) := by
  constructor
  · exact ⟨groups.map fun gr => (gr.1, applyMWColumn mw gr.2 negColumn, countV gr.2),
      by simp [applyGeneScoreFunction]⟩
  · intro column h
    simp [applyMWColumn, h]

/-- Witness for C9 at a one-guide group whose only score is `NaN`. -/
theorem applyMW_empty_group_witness :
    (([none] : List Val).filterMap id = []) ∧
      applyMWColumn (fun _ _ => 0) [none] [] = none :=
  ⟨rfl, (applyMW_empty_group (fun _ _ => 0) [] [] []).2 [none] rfl⟩

/-- C4: replicate averaging with `skipna=False`: missing values propagate
(any `NaN` replicate makes the average `NaN`), all-valid rows get the
arithmetic mean, and the averaged column label is `ave_` followed by the
replicate ids joined by underscores. -/
theorem replicate_averaging (scores : List Val) :
    (none ∈ scores → meanNoSkip scores = none) ∧
    (∀ xs : List ℚ, xs ≠ [] →
      meanNoSkip (xs.map some) = some (xs.sum / (xs.length : ℚ))) ∧
    meanNoSkip [some (1/2), none] = none ∧
    aveLabel ["Rep1", "Rep2"] = "ave_Rep1_Rep2" := by
  refine ⟨fun h => ?_, fun xs hxs => ?_, ?_, ?_⟩
  · simp [meanNoSkip, h]
  · have h1 : ¬(none ∈ xs.map some) := by simp
    simp [meanNoSkip, h1, hxs, npMean, List.filterMap_map, Function.comp,
      List.filterMap_some]
  · simp [meanNoSkip]
  · rfl

/-- Witness for C4: a replicate pair (0.5, NaN) averages to NaN, and a
fully-valid pair gets the arithmetic mean. -/
theorem replicate_averaging_witness :
    (none ∈ ([some (1/2), none] : List Val)) ∧
      meanNoSkip [some (1/2), none] = none ∧
      meanNoSkip ([(1:ℚ), 3].map some) =
        some (([(1:ℚ), 3]).sum / (([(1:ℚ), 3]).length : ℚ)) :=
  ⟨by simp, (replicate_averaging [some (1/2), none]).1 (by simp),
   (replicate_averaging []).2.1 [1, 3] (by simp)⟩

/-- C10: each of the three policy dispatchers raises `ValueError` on an
unrecognized name: `filterLowCounts` outside both/all/either/any,
`computePhenotypeScore` outside default/zeros only/all values/filter out,
and `applyGeneScoreFunction` outside the three analysis names. -/
theorem dispatchers_raise_on_unrecognized
    (s1 s2 s3 : String) (cols : List (ℚ × ℚ)) (T : ℚ) (log2 : ℚ → ℚ)
    (c1s c2s : List Val) (genes : List String) (g p : ℚ) (nn : Bool)
    (mw : List ℚ → List ℚ → ℚ) (groups : List (String × List Val))
    (negColumn : List Val) (params : List Int)
    (h1 : s1 ∉ ["both", "all", "either", "any"])
    (h2 : s2 ∉ ["default", "zeros only", "all values", "filter out"])
    (h3 : s3 ∉ ["calculate_ave", "calculate_mw", "calculate_nth"]) :
    filterLowCounts cols s1 T = .error "filter type not recognized or not implemented" ∧
    computePhenotypeScore log2 c1s c2s genes g s2 p nn =
      .error "Pseudocount behavior not recognized or not implemented" ∧
    applyGeneScoreFunction mw groups negColumn s3 params =
      .error ("Analysis " ++ s3 ++ " not recognized or not implemented") := by
  simp only [List.mem_cons, List.not_mem_nil, or_false, not_or] at h1 h2 h3
  refine ⟨?_, ?_, ?_⟩
  · simp [filterLowCounts, h1.1, h1.2.1, h1.2.2.1, h1.2.2.2]
  · simp [computePhenotypeScore, h2.1, h2.2.1, h2.2.2.1, h2.2.2.2]
  · simp [applyGeneScoreFunction, h3.1, h3.2.1, h3.2.2]

/-- Witness for C10 at the unrecognized name "bogus". -/
theorem dispatchers_raise_on_unrecognized_witness :
    ("bogus" ∉ ["both", "all", "either", "any"]) ∧
      filterLowCounts [] "bogus" 0 =
        .error "filter type not recognized or not implemented" ∧
      applyGeneScoreFunction (fun _ _ => 0) [] [] "bogus" [] =
        .error ("Analysis " ++ "bogus" ++ " not recognized or not implemented") := by
  have h := dispatchers_raise_on_unrecognized "bogus" "bogus" "bogus" [] 0 id
    [] [] [] 0 0 true (fun _ _ => 0) [] [] [] (by decide) (by decide) (by decide)
  exact ⟨by decide, h.1, h.2.2⟩

/-- C5 (code behavior): with a nonzero number of requested analyses and a
pseudogene mode that is neither `off` nor (case-insensitively) `manual` nor
`auto`, the pipeline prints the "defaulting to off" warning but then still
evaluates `pd.concat` on the empty `pseudoTableList`, so the run dies with
the uncaught pandas `ValueError` instead of continuing. -/
theorem pseudogene_unrecognized_mode_raises :
    pseudogeneStep "on" 1 (fun _ _ _ => []) 10 10 [] [] [] [] =
      (["Generating a pseudogene distribution from negative controls",
        "generate_pseudogene_dist parameter not recognized, defaulting to off"],
       .error "No objects to concatenate") := by
  rfl

/-- Summing two aligned columns adds their totals. -/
theorem sum_zipWith_add (a b : List ℚ) (h : a.length = b.length) :
    (List.zipWith (fun x y => x + y) a b).sum = a.sum + b.sum := by
  induction a generalizing b with
  | nil =>
    cases b with
    | nil => simp
    | cons y ys => simp at h
  | cons x xs ih =>
    cases b with
    | nil => simp at h
    | cons y ys =>
      simp only [List.zipWith_cons_cons, List.sum_cons]
      rw [ih ys (by simpa using h)]
      ring

/-- Folding elementwise addition over equal-length columns accumulates the
grand total. -/
theorem foldl_zipWith_sum (rest : List (List ℚ)) (n : Nat)
    (hrest : ∀ c ∈ rest, c.length = n) :
    ∀ acc : List ℚ, acc.length = n →
      (rest.foldl (fun a col => List.zipWith (fun x y => x + y) a col) acc).sum
        = acc.sum + (rest.map List.sum).sum := by
  induction rest with
  | nil => intro acc _; simp
  | cons col rest ih =>
    intro acc hacc
    simp only [List.foldl_cons, List.map_cons, List.sum_cons]
    have hcol : col.length = n := hrest col (by simp)
    have hlen : (List.zipWith (fun x y => x + y) acc col).length = n := by
      simp [List.length_zipWith, hacc, hcol]
    rw [ih (fun c hc => hrest c (by simp [hc])) _ hlen,
      sum_zipWith_add acc col (by rw [hacc, hcol])]
    ring

/-- The total of an elementwise-summed group of equal-length columns is the
sum of the columns' totals. -/
theorem sumColumns_sum (cs : List (List ℚ)) (n : Nat) (h : ∀ c ∈ cs, c.length = n) :
    (sumColumns cs).sum = (cs.map List.sum).sum := by
  cases cs with
  | nil => simp [sumColumns]
  | cons c rest =>
    simp only [sumColumns, List.map_cons, List.sum_cons]
    exact foldl_zipWith_sum rest n (fun d hd => h d (by simp [hd])) c (h c (by simp))

/-- Splitting a sum over a list by a Boolean predicate. -/
theorem sum_map_filter_split (p : α → Bool) (f : α → ℚ) (l : List α) :
    ((l.filter p).map f).sum + ((l.filter fun x => !(p x)).map f).sum = (l.map f).sum := by
  induction l with
  | nil => simp
  | cons x xs ih =>
    by_cases h : p x
    · simp only [List.filter_cons, h, Bool.not_true, if_pos, List.map_cons, List.sum_cons,
        if_neg Bool.false_ne_true]
      rw [← ih]
      ring
    · have h' : p x = false := by simpa using h
      simp only [List.filter_cons, h', Bool.not_false, if_pos, List.map_cons, List.sum_cons,
        if_neg Bool.false_ne_true]
      rw [← ih]
      ring

/-- Partitioning a list by a key drawn from a duplicate-free list of keys
covering every element preserves the sum of any numeric projection. -/
theorem sum_over_groups {κ α : Type*} [DecidableEq κ] (key : α → κ) (f : α → ℚ) :
    ∀ ks : List κ, ks.Nodup → ∀ l : List α, (∀ x ∈ l, key x ∈ ks) →
      (ks.map fun k => ((l.filter fun x => key x = k).map f).sum).sum = (l.map f).sum := by
  intro ks
  induction ks with
  | nil =>
    intro _ l hcov
    have hl : l = [] := List.eq_nil_iff_forall_not_mem.mpr fun x hx => by
      simpa using hcov x hx
    simp [hl]
  | cons k ks ih =>
    intro hnd l hcov
    obtain ⟨hk, hnd2⟩ := List.nodup_cons.mp hnd
    simp only [List.map_cons, List.sum_cons]
    have hgroups : ∀ k2 ∈ ks, (l.filter fun x => key x = k2)
        = ((l.filter fun x => !(decide (key x = k))).filter fun x => key x = k2) := by
      intro k2 hk2
      rw [List.filter_filter]
      apply List.filter_congr
      intro x _
      by_cases hx : key x = k2
      · have hne : k2 ≠ k := fun hc => hk (hc ▸ hk2)
        simp [hx]
        exact hne
      · simp [hx]
    have hrest : (ks.map fun k2 => ((l.filter fun x => key x = k2).map f).sum).sum
        = ((l.filter fun x => !(decide (key x = k))).map f).sum := by
      rw [List.map_congr_left fun k2 hk2 => by rw [hgroups k2 hk2]]
      exact ih hnd2 _ fun x hx => by
        obtain ⟨hxl, hxk⟩ := List.mem_filter.mp hx
        have := hcov x hxl
        simp only [List.mem_cons] at this
        rcases this with h | h
        · simp [h] at hxk
        · exact h
    rw [hrest]
    exact sum_map_filter_split (fun x => decide (key x = k)) f l

/-- C8: merging raw columns by (condition, replicate) and summing
elementwise conserves reads: the merged columns' totals add up to the raw
columns' totals (for any table whose columns share one length). -/
theorem merged_counts_conserve_reads
    (cols : List ((String × String × String) × List ℚ)) (n : Nat)
    (hlen : ∀ c ∈ cols, c.2.length = n) :
    ((mergedCountsTable cols).map fun c => c.2.sum).sum
      = (cols.map fun c => c.2.sum).sum := by
  unfold mergedCountsTable
  rw [List.map_map]
  have hstep : ∀ k : String × String,
      (sumColumns ((cols.filter fun c => keyCondRep c.1 = k).map Prod.snd)).sum
        = ((cols.filter fun c => keyCondRep c.1 = k).map fun c => c.2.sum).sum := by
    intro k
    rw [sumColumns_sum _ n ?hl, List.map_map]
    case hl =>
      intro col hcol
      obtain ⟨c, hc, hcc⟩ := List.mem_map.mp hcol
      rw [← hcc]
      exact hlen c (List.mem_of_mem_filter hc)
    rfl
  have hmap : ((cols.map fun c => keyCondRep c.1).dedup.map
        ((fun c => c.2.sum) ∘ fun k =>
          (k, sumColumns ((cols.filter fun c => keyCondRep c.1 = k).map Prod.snd)))).sum
      = ((cols.map fun c => keyCondRep c.1).dedup.map fun k =>
          ((cols.filter fun c => keyCondRep c.1 = k).map fun c => c.2.sum).sum).sum := by
    apply congrArg
    apply List.map_congr_left
    intro k _
    exact hstep k
  rw [hmap]
  exact sum_over_groups (fun c => keyCondRep c.1) (fun c => c.2.sum)
    _ (List.nodup_dedup _) cols
    (fun x hx => List.mem_dedup.mpr (List.mem_map.mpr ⟨x, hx, rfl⟩))

/-- Witness for C8 on a concrete three-column table (two lanes of one
(condition, replicate) pair plus one other column). -/
theorem merged_counts_conserve_reads_witness :
    (∀ c ∈ exampleRawCols, c.2.length = 2) ∧
      ((mergedCountsTable exampleRawCols).map fun c => c.2.sum).sum
        = (exampleRawCols.map fun c => c.2.sum).sum :=
  ⟨by decide, merged_counts_conserve_reads exampleRawCols 2 (by decide)⟩

/-- Dropping `NaN`s from an all-valid column recovers the plain values. -/
theorem filterMap_id_map_some (l : List ℚ) : (l.map some).filterMap id = l := by
  rw [List.filterMap_map, Function.id_comp, List.filterMap_some]

/-- Stable insertion commutes with wrapping every value in `some`. -/
theorem insertSorted_map_some (x : ℚ) (l : List ℚ) :
    insertSorted ltAbsV (some x) (l.map some) = (insertSorted ltAbs x l).map some := by
  induction l with
  | nil => rfl
  | cons y ys ih =>
    simp only [List.map_cons, insertSorted]
    have hb : ltAbsV (some x) (some y) = ltAbs x y := rfl
    rw [hb]
    cases hxy : ltAbs x y <;> simp [hxy, ih]

/-- Sorting commutes with wrapping every value in `some` (generalized over
the accumulating prefix). -/
theorem pySortAsc_map_some_aux (l : List ℚ) :
    ∀ acc : List ℚ,
      List.foldl (fun a x => insertSorted ltAbsV x a) (acc.map some) (l.map some)
        = (List.foldl (fun a x => insertSorted ltAbs x a) acc l).map some := by
  induction l with
  | nil => intro acc; rfl
  | cons y ys ih =>
    intro acc
    simp only [List.map_cons, List.foldl_cons]
    rw [insertSorted_map_some, ih]

/-- `sorted` on an all-valid column is `sorted` on the plain values. -/
theorem pySortAsc_map_some (l : List ℚ) :
    pySortAsc ltAbsV (l.map some) = (pySortAsc ltAbs l).map some :=
  pySortAsc_map_some_aux l []

/-- `sorted(..., reverse=True)` on an all-valid column is the same on the
plain values. -/
theorem pySortDesc_map_some (l : List ℚ) :
    pySortDesc ltAbsV (l.map some) = (pySortDesc ltAbs l).map some := by
  rw [pySortDesc, pySortDesc, ← List.map_reverse, pySortAsc_map_some, List.map_reverse]

/-- Insertion grows the length by one. -/
theorem length_insertSorted (lt : α → α → Bool) (x : α) (l : List α) :
    (insertSorted lt x l).length = l.length + 1 := by
  induction l with
  | nil => rfl
  | cons y ys ih =>
    simp only [insertSorted]
    cases h : lt x y <;> simp [h, ih]

/-- The sort fold preserves total length. -/
theorem length_pySortAsc_aux (lt : α → α → Bool) (l : List α) :
    ∀ acc : List α,
      (List.foldl (fun a x => insertSorted lt x a) acc l).length
        = acc.length + l.length := by
  induction l with
  | nil => intro acc; simp
  | cons y ys ih =>
    intro acc
    simp only [List.foldl_cons, List.length_cons]
    rw [ih, length_insertSorted]
    omega

/-- Sorting preserves length. -/
theorem length_pySortDesc (lt : α → α → Bool) (l : List α) :
    (pySortDesc lt l).length = l.length := by
  unfold pySortDesc pySortAsc
  rw [List.length_reverse, length_pySortAsc_aux, List.length_reverse]
  simp

/-- Insertion yields a permutation of consing. -/
theorem insertSorted_perm (lt : α → α → Bool) (x : α) (l : List α) :
    List.Perm (insertSorted lt x l) (x :: l) := by
  induction l with
  | nil => exact List.Perm.refl _
  | cons y ys ih =>
    simp only [insertSorted]
    by_cases h : lt x y = true
    · rw [if_pos h]
    · rw [if_neg h]
      exact (ih.cons y).trans (List.Perm.swap x y ys)

/-- The sort fold permutes the prefix and the remaining input. -/
theorem pySortAsc_perm_aux (lt : α → α → Bool) (l : List α) :
    ∀ acc : List α,
      List.Perm (List.foldl (fun a x => insertSorted lt x a) acc l) (acc ++ l) := by
  induction l with
  | nil => intro acc; simpa using List.Perm.refl acc
  | cons y ys ih =>
    intro acc
    simp only [List.foldl_cons]
    refine (ih _).trans ?_
    refine (List.Perm.append_right ys (insertSorted_perm lt y acc)).trans ?_
    exact List.perm_middle.symm

/-- `pySortAsc` is a permutation. -/
theorem pySortAsc_perm (lt : α → α → Bool) (l : List α) :
    List.Perm (pySortAsc lt l) l := by
  simpa using pySortAsc_perm_aux lt l []

/-- `pySortDesc` is a permutation. -/
theorem pySortDesc_perm (lt : α → α → Bool) (l : List α) :
    List.Perm (pySortDesc lt l) l := by
  unfold pySortDesc
  exact (List.reverse_perm _).trans ((pySortAsc_perm lt l.reverse).trans (List.reverse_perm l))

/-- Inserting into a list sorted by nondecreasing absolute value keeps it
sorted. -/
theorem pairwise_insertSorted_abs (x : ℚ) (l : List ℚ)
    (h : l.Pairwise fun a b => |a| ≤ |b|) :
    (insertSorted ltAbs x l).Pairwise fun a b => |a| ≤ |b| := by
  induction l with
  | nil => simp [insertSorted]
  | cons y ys ih =>
    obtain ⟨hy, hys⟩ := List.pairwise_cons.mp h
    simp only [insertSorted]
    by_cases hxy : ltAbs x y = true
    · have hlt : |x| < |y| := by
        have h2 := hxy
        simp only [ltAbs, decide_eq_true_eq] at h2
        exact h2
      rw [if_pos hxy]
      refine List.Pairwise.cons ?_ h
      intro b hb
      rcases List.mem_cons.mp hb with rfl | hbys
      · exact hlt.le
      · exact hlt.le.trans (hy b hbys)
    · have hge : |y| ≤ |x| := by
        have h2 : ltAbs x y = false := by simpa using hxy
        simp only [ltAbs, decide_eq_false_iff_not, not_lt] at h2
        exact h2
      rw [if_neg hxy]
      refine List.Pairwise.cons ?_ (ih hys)
      intro b hb
      have hb2 : b ∈ x :: ys := (insertSorted_perm ltAbs x ys).mem_iff.mp hb
      rcases List.mem_cons.mp hb2 with rfl | hbys
      · exact hge
      · exact hy b hbys

/-- The sort fold returns a list sorted by nondecreasing absolute value
whenever the prefix is. -/
theorem pairwise_pySortAsc_aux (l : List ℚ) :
    ∀ acc : List ℚ, (acc.Pairwise fun a b => |a| ≤ |b|) →
      ((List.foldl (fun a x => insertSorted ltAbs x a) acc l).Pairwise
        fun a b => |a| ≤ |b|) := by
  induction l with
  | nil => intro acc h; simpa using h
  | cons y ys ih =>
    intro acc h
    simp only [List.foldl_cons]
    exact ih _ (pairwise_insertSorted_abs y acc h)

/-- `pySortDesc ltAbs` sorts by nonincreasing absolute value. -/
theorem pairwise_pySortDesc_abs (l : List ℚ) :
    (pySortDesc ltAbs l).Pairwise fun a b => |b| ≤ |a| := by
  unfold pySortDesc
  exact List.pairwise_reverse.mpr (pairwise_pySortAsc_aux l.reverse [] List.Pairwise.nil)

/-- C6, amended: on a gene group with no missing scores, `calculate_nth`
returns the score ranked `nth` by absolute value descending and `NaN` when
fewer than `nth` scores exist; the ranking list is a permutation of the
group sorted by nonincreasing absolute value.  (On groups that do contain
missing scores the source counts the `NaN`s towards the group size, which
the counterexample below exhibits.) -/
theorem calcNth_on_all_valid (nth : Int) (x : List ℚ) (h1 : 1 ≤ nth) :
    calcNthColumn nth (x.map some) = specNthValid nth (x.map some) ∧
    List.Perm (pySortDesc ltAbs x) x ∧
    ((pySortDesc ltAbs x).Pairwise fun a b => |b| ≤ |a|) := by
  refine ⟨?_, pySortDesc_perm ltAbs x, pairwise_pySortDesc_abs x⟩
  simp only [calcNthColumn, specNthValid, filterMap_id_map_some, List.length_map]
  by_cases h2 : nth ≤ (x.length : Int)
  · rw [if_pos h2, if_pos ⟨h1, h2⟩]
    have hl : (pySortDesc ltAbs x).length = x.length := length_pySortDesc ltAbs x
    have hi : (nth - 1).toNat < (pySortDesc ltAbs x).length := by rw [hl]; omega
    rw [pySortDesc_map_some]
    rw [pyGet, if_pos (by omega : (0:Int) ≤ nth - 1)]
    rw [List.get?_map, List.get?_eq_get hi]
    have hi2 : nth.toNat - 1 < (pySortDesc ltAbs x).length := by rw [hl]; omega
    simp [List.getD_eq_get?, List.get?_eq_get hi, List.getElem?_eq_getElem hi2]
  · rw [if_neg h2, if_neg fun hc => h2 hc.2]

/-- Witness for the amended C6 at a concrete all-valid two-guide group. -/
theorem calcNth_on_all_valid_witness :
    (1:Int) ≤ 1 ∧
      calcNthColumn 1 ([(3:ℚ), -5].map some) = specNthValid 1 ([(3:ℚ), -5].map some) :=
  ⟨le_refl 1, (calcNth_on_all_valid 1 [3, -5] (le_refl 1)).1⟩

/-- Counterexample to C6 as stated: the group `[NaN, 5]` has a single valid
guide score, yet `calculate_nth` with `nth = 2` returns the non-missing
value 5 — `len(x)` counts the `NaN`, and CPython's stable reverse sort
leaves the `NaN` in front. -/
theorem calcNth_missing_counted_counterexample :
    calcNthColumn 2 [none, some 5] = some 5 ∧ countV [none, some 5] = 1 := by
  exact ⟨rfl, rfl⟩

/-- For a positive `N`, `averageBestN` computes the mean of the
`min(N, number of valid scores)` largest-in-absolute-value valid scores. -/
theorem averageBestN_matches_spec (N : Int) (column : List Val) (hN : 0 < N) :
    averageBestNColumn N column = specAveTopN N column := by
  simp only [averageBestNColumn, specAveTopN]
  by_cases h : column.filterMap id = []
  · simp [h]
  · have hpos : 0 < (column.filterMap id).length := List.length_pos.mpr h
    rw [if_pos hpos, if_neg h]
    have hts : pyTake N (pySortDesc ltAbs (column.filterMap id))
        = (pySortDesc ltAbs (column.filterMap id)).take
            (min N.toNat (column.filterMap id).length) := by
      rw [pyTake, if_pos (le_of_lt hN)]
      rw [List.take_eq_take]
      rw [length_pySortDesc]
      omega
    rw [hts]

/-- C7, amended: for `N > 0` the `calculate_ave` analysis emits per gene
group the mean of the `min(N, number of valid guide scores)` valid scores
largest in absolute value (missing when no valid score exists), together
with the number of valid (non-missing) guide scores of the group — which is
the emitted count even when it exceeds the `min(N, ...)` scores actually
averaged, as the number of averaged scores is `min(N, valid)`. -/
theorem calcAve_count_amended (mw : List ℚ → List ℚ → ℚ) (N : Int)
    (groups : List (String × List Val)) (negColumn : List Val) (hN : 0 < N) :
    applyGeneScoreFunction mw groups negColumn "calculate_ave" [N]
      = .ok (groups.map fun gr =>
          (gr.1, specAveTopN N gr.2, (gr.2.filterMap id).length)) ∧
    ∀ column : List Val,
      ((pySortDesc ltAbs (column.filterMap id)).take N.toNat).length
        = min N.toNat (column.filterMap id).length := by
  constructor
  · have hne : ¬ N ≤ 0 := by omega
    have hmap : groups.map (fun gr => (gr.1, averageBestNColumn N gr.2, countV gr.2))
        = groups.map fun gr =>
            (gr.1, specAveTopN N gr.2, (gr.2.filterMap id).length) :=
      List.map_congr_left fun gr _ => by
        rw [averageBestN_matches_spec N gr.2 hN]; rfl
    simp [applyGeneScoreFunction, hne, hmap]
  · intro column
    rw [List.length_take, length_pySortDesc]

/-- Witness for the amended C7 at a concrete group. -/
theorem calcAve_count_amended_witness :
    (0:Int) < 1 ∧
      applyGeneScoreFunction (fun _ _ => 0) [("gene1", [some 1, none])] []
          "calculate_ave" [1]
        = .ok ([("gene1", [some 1, none])].map fun gr =>
            (gr.1, specAveTopN 1 gr.2, (gr.2.filterMap id).length)) :=
  ⟨by norm_num,
   (calcAve_count_amended (fun _ _ => 0) 1 [("gene1", [some 1, none])] [] (by norm_num)).1⟩

/-- Counterexample to C7 as stated: a group with the two valid scores 1 and
2 under `calculate_ave` with `N = 1` averages only the single strongest
score (the emitted score is 2, the mean of one guide), yet the emitted
count is 2 — the number of valid guides, not the number of guides actually
used in the average (which is 1). -/
theorem calcAve_count_counterexample :
    applyGeneScoreFunction (fun _ _ => 0) [("gene1", [some 1, some 2])] []
        "calculate_ave" [1]
      = .ok [("gene1", some 2, 2)] ∧
    ((pySortDesc ltAbs ([some (1:ℚ), some 2].filterMap id)).take (1:Int).toNat).length
      = 1 := by
  have hab : averageBestNColumn 1 [some (1:ℚ), some 2] = some 2 := by
    rw [show averageBestNColumn 1 [some (1:ℚ), some 2]
        = some (npMean (pyTake 1 (pySortDesc ltAbs [1, 2]))) from rfl]
    rw [show pyTake 1 (pySortDesc ltAbs [(1:ℚ), 2]) = [2] from by decide]
    norm_num [npMean]
  constructor
  · rw [show applyGeneScoreFunction (fun _ _ => 0) [("gene1", [some 1, some 2])] []
          "calculate_ave" [1]
        = .ok [("gene1", averageBestNColumn 1 [some (1:ℚ), some 2], 2)] from rfl, hab]
  · decide

/-- Summing along an all-valid column. -/
theorem sumV_map_some (l : List ℚ) : sumV (l.map some) = l.sum := by
  rw [sumV, filterMap_id_map_some]

/-- The pandas median of a nonempty all-valid column. -/
theorem medianV_map_some (l : List ℚ) (h : l ≠ []) :
    medianV (l.map some) = some (medianList l) := by
  rw [medianV, filterMap_id_map_some]
  simp [h]

/-- The common scoring tail of `computePhenotypeScore`, evaluated on a
pseudocounted table whose rows are all valid, equals the spec formula:
counts ratio = total1/total2, baseline = median over negative-control
guides of `log2(countsRatio * count2 / count1)`, and per-guide score
`(log2(countsRatio * count2 / count1) - baseline) / growthValue`. -/
theorem scoreRows_all_some (log2 : ℚ → ℚ) (rows : List (String × ℚ × ℚ)) (g : ℚ)
    (hneg : (rows.filter fun r => r.1 = "negative_control") ≠ []) :
    scoreRows log2 g true (rows.map fun r => r.1)
      (rows.map fun r => ((some r.2.1 : Val), (some r.2.2 : Val)))
      = phenotypeScoreSpec log2 rows g := by
  simp only [scoreRows, if_true]
  rw [List.zip_map']
  rw [List.filter_map]
  have hfst : ((rows.map fun r => ((some r.2.1 : Val), (some r.2.2 : Val))).map Prod.fst)
      = (rows.map fun r => r.2.1).map some := by
    rw [List.map_map, List.map_map]; rfl
  have hsnd : ((rows.map fun r => ((some r.2.1 : Val), (some r.2.2 : Val))).map Prod.snd)
      = (rows.map fun r => r.2.2).map some := by
    rw [List.map_map, List.map_map]; rfl
  rw [hfst, hsnd, sumV_map_some, sumV_map_some]
  have hpred : ((fun gr : String × Val × Val => decide (gr.1 = "negative_control")) ∘
        fun r : String × ℚ × ℚ => (r.1, (some r.2.1 : Val), (some r.2.2 : Val)))
      = fun r : String × ℚ × ℚ => decide (r.1 = "negative_control") := rfl
  rw [hpred]
  set negs := rows.filter fun r => r.1 = "negative_control" with hnegs
  have hnegmap : ((negs.map fun r : String × ℚ × ℚ =>
          (r.1, (some r.2.1 : Val), (some r.2.2 : Val))).map Prod.snd).map
        (fun row : Val × Val => calcLog2e log2 (countsRatioSpec rows) 1 (some 0) row.1 row.2)
      = (negs.map fun r =>
          log2 (countsRatioSpec rows * r.2.2 / r.2.1)).map some := by
    rw [List.map_map, List.map_map, List.map_map]
    apply List.map_congr_left
    intro r _
    simp [calcLog2e, countsRatioSpec]
  have hcr : (rows.map fun r => r.2.1).sum / (rows.map fun r => r.2.2).sum
      = countsRatioSpec rows := rfl
  rw [hcr, hnegmap, medianV_map_some _ (by simpa using hneg)]
  rw [List.map_map]
  apply List.map_congr_left
  intro r _
  simp [calcLog2e, phenotypeScoreSpec, wtLog2ESpec, countsRatioSpec]

/-- C1: with the `zeros only` pseudocount policy, on a table of already
positive (pseudocounted) counts aligned with its library genes, a nonzero
growth value and at least one negative-control guide, `computePhenotypeScore`
returns per guide `(log2(countsRatio * count2 / count1) - wtLog2E) / g`,
where `countsRatio` is the total of counts1 over the total of counts2 and
`wtLog2E` is the median of `log2(countsRatio * count2 / count1)` over the
negative-control guides. -/
theorem computePhenotypeScore_zeros_only_formula
    (log2 : ℚ → ℚ) (rows : List (String × ℚ × ℚ)) (g p : ℚ)
    (hpos : ∀ r ∈ rows, 0 < r.2.1 ∧ 0 < r.2.2) (hg : g ≠ 0)
    (hneg : ∃ r ∈ rows, r.1 = "negative_control") :
    computePhenotypeScore log2 (rows.map fun r => some r.2.1)
      (rows.map fun r => some r.2.2) (rows.map fun r => r.1) g "zeros only" p true
      = .ok (phenotypeScoreSpec log2 rows g) := by
  unfold computePhenotypeScore
  rw [if_pos (Or.inr rfl)]
  rw [List.zip_map']
  have hid : ((rows.map fun r => ((some r.2.1 : Val), (some r.2.2 : Val))).map
        (pseudoZerosRow p))
      = rows.map fun r => ((some r.2.1 : Val), (some r.2.2 : Val)) := by
    rw [List.map_map]
    apply List.map_congr_left
    intro r hr
    obtain ⟨h1, h2⟩ := hpos r hr
    have hmin : min r.2.1 r.2.2 ≠ 0 := ne_of_gt (lt_min h1 h2)
    simp [Function.comp, pseudoZerosRow, rowMin, hmin]
  rw [hid, scoreRows_all_some]
  obtain ⟨r, hr, hgene⟩ := hneg
  exact List.ne_nil_of_mem (List.mem_filter.mpr ⟨hr, by simp [hgene]⟩)

/-- Witness for C1 on a two-guide table with one negative control. -/
theorem computePhenotypeScore_zeros_only_formula_witness :
    (∀ r ∈ ([("negative_control", 1, 1), ("geneA", 2, 1)] : List (String × ℚ × ℚ)),
        0 < r.2.1 ∧ 0 < r.2.2) ∧
      computePhenotypeScore (fun _ => 0)
        (([("negative_control", 1, 1), ("geneA", 2, 1)] :
            List (String × ℚ × ℚ)).map fun r => some r.2.1)
        (([("negative_control", 1, 1), ("geneA", 2, 1)] :
            List (String × ℚ × ℚ)).map fun r => some r.2.2)
        (([("negative_control", 1, 1), ("geneA", 2, 1)] :
            List (String × ℚ × ℚ)).map fun r => r.1) 1 "zeros only" 1 true
        = .ok (phenotypeScoreSpec (fun _ => 0)
            [("negative_control", 1, 1), ("geneA", 2, 1)] 1) :=
  ⟨by norm_num,
   computePhenotypeScore_zeros_only_formula (fun _ => 0)
     [("negative_control", 1, 1), ("geneA", 2, 1)] 1 1 (by norm_num) one_ne_zero
     ⟨("negative_control", 1, 1), by simp, rfl⟩⟩

end ScreenProcessing
